import Mathlib

/-!
# Polling-station finder: the search of `PollingFinder`

A shallow embedding of `searchPollingStation` from
`src/polling-finder-with-map_1.jsx` together with the parts of its environment
that decide what it does:

* the regular expression `/\b\d{4}\b/` used by `searchAddress.match`,
* `String.prototype.toLowerCase`,
* the three Supabase queries on the table `polling_stations`
  (`eq ... limit(1).single()` and twice `ilike ... limit(1)`),
* the React state of the component (`result`, `loading`, `error`,
  `mapCenter`, `showMap`) and the `try / catch / finally` control flow.

Strings are sequences of characters.  The queries issued during a call are
recorded in a log next to the final component state, so that statements about
which tier was consulted can be made.

The backend is the table in its row order together with the way each query is
answered: with rows, with an error object in place of rows, or by a rejected
promise.  The component cannot tell an error object from an empty answer (it
reads `data` only), and only a rejected promise reaches its `catch` block.

The operand of `ilike` is a `LIKE` pattern: `%` and `_` are wildcards and the
backslash escapes.  The component builds it from the search text without
escaping, so the pattern semantics is part of what the search computes.
-/

namespace PollingFinder

/-! ## Characters and the regular expression `/\b\d{4}\b/` -/

/-- The class `\d` of a regular expression without the `u` flag: `[0-9]`. -/
def isDigit (c : Char) : Bool := c.isDigit

/-- The class `\w` of a regular expression without the `u` and `i` flags:
`[A-Za-z0-9_]`. -/
def isWordChar (c : Char) : Bool := c.isAlphanum || c == '_'

/-- Word-character test at a position that may lie outside the string
(`none`): outside the string nothing is a word character. -/
def isWordAt : Option Char → Bool
  | none => false
  | some c => isWordChar c

/-- The assertion `\b` between the character before the position and the
character at the position: exactly one of the two is a word character. -/
def wordBoundary (before after : Option Char) : Bool :=
  isWordAt before != isWordAt after

/-- Attempt of `\b\d{4}\b` at one position: `before` is the character left of
the position, the list is the rest of the string from the position on. -/
def matchHere (before : Option Char) : List Char → Option (List Char)
  | a :: b :: c :: d :: rest =>
    if wordBoundary before (some a) && isDigit a && isDigit b && isDigit c && isDigit d
        && wordBoundary (some d) rest.head? then
      some [a, b, c, d]
    else none
  | _ => none

/-- Leftmost match of `\b\d{4}\b`, scanning the positions from left to right. -/
def scanPostal (before : Option Char) : List Char → Option (List Char)
  | [] => none
  | c :: rest =>
    match matchHere before (c :: rest) with
    | some tok => some tok
    | none => scanPostal (some c) rest

/-- The value `postalMatch[0]` of `searchAddress.match(/\b\d{4}\b/)`, or `none`
when `match` returns `null`. -/
def postalMatch (searchAddress : String) : Option String :=
  (scanPostal none searchAddress.data).map String.mk

/-! ## Lower-casing -/

/-- The case mapping shared by `String.prototype.toLowerCase` and by the
case folding of PostgreSQL `ILIKE`, taken character by character.  It is a
parameter of the development; the two laws are the only facts used about it:
lower-casing twice is lower-casing once, and the percent sign has no case. -/
structure CaseMap where
  lower : Char → Char
  lower_idem : ∀ c, lower (lower c) = lower c
  lower_percent : lower '%' = '%'

/-- The expression `searchAddress.toLowerCase()`. -/
def toLowerCase (cm : CaseMap) (s : String) : String :=
  String.mk (s.data.map cm.lower)

/-! ## The `ILIKE` operator as reached through PostgREST -/

/-- One element of a `LIKE` pattern. -/
inductive LikeTok where
  | anySeq : LikeTok
  | anyOne : LikeTok
  | lit : Char → LikeTok
  | badEscape : LikeTok
  deriving DecidableEq, Repr

/-- PostgREST reads `*` in the operand of `like` and `ilike` as `%`. -/
def starToPercent (p : List Char) : List Char :=
  p.map (fun c => if c = '*' then '%' else c)

/-- Reading of a `LIKE` pattern: `%` is any sequence, `_` any one character,
a backslash makes the next character literal.  A backslash at the very end of
the pattern is kept as `badEscape`, which matches nothing. -/
def likeTokens : List Char → List LikeTok
  | [] => []
  | [c] =>
    if c = '%' then [LikeTok.anySeq]
    else if c = '_' then [LikeTok.anyOne]
    else if c = '\\' then [LikeTok.badEscape]
    else [LikeTok.lit c]
  | c :: d :: rest =>
    if c = '%' then LikeTok.anySeq :: likeTokens (d :: rest)
    else if c = '_' then LikeTok.anyOne :: likeTokens (d :: rest)
    else if c = '\\' then LikeTok.lit d :: likeTokens rest
    else LikeTok.lit c :: likeTokens (d :: rest)

/-- Does the text end the match of `%` followed by the rest of the pattern:
some suffix of the text is accepted by `k`. -/
def anySuffix (k : List Char → Bool) : List Char → Bool
  | [] => k []
  | c :: t => k (c :: t) || anySuffix k t

/-- Matching of a tokenised `LIKE` pattern against a whole text. -/
def likeMatch : List LikeTok → List Char → Bool
  | [], t => t.isEmpty
  | LikeTok.anySeq :: p, t => anySuffix (likeMatch p) t
  | LikeTok.anyOne :: _, [] => false
  | LikeTok.anyOne :: p, _ :: t => likeMatch p t
  | LikeTok.lit _ :: _, [] => false
  | LikeTok.lit c :: p, d :: t => (c == d) && likeMatch p t
  | LikeTok.badEscape :: _, _ => false

/-- The filter `ilike(column, pattern)`: `text ILIKE pattern`, both sides
folded with the case mapping. -/
def ilike (cm : CaseMap) (pattern text : String) : Bool :=
  likeMatch (likeTokens ((starToPercent pattern.data).map cm.lower)) (text.data.map cm.lower)

/-- The template literal of the two `ilike` calls: percent, `searchLower`,
percent. -/
def containsPattern (searchLower : String) : String :=
  String.mk ('%' :: searchLower.data ++ ['%'])

/-! ## Data model -/

/-- A coordinate value of a row.  The search only passes it on. -/
abbrev Coord := Int

/-- A row of the table `polling_stations`, with the columns the component
reads.  `lat` and `lng` may be null in a row. -/
structure Record where
  postal_code : String
  settlement : String
  address : String
  station_number : String
  district : Option String
  lat : Option Coord
  lng : Option Coord
  deriving DecidableEq, Repr

/-- The three queries of `searchPollingStation`, in the order of the source. -/
inductive Tier where
  | postal : Tier
  | settlement : Tier
  | address : Tier
  deriving DecidableEq, Repr

/-- How the backend answers a query: normally, with an error object in place
of rows (`data` is `null`), or by rejecting the awaited promise. -/
inductive Fault where
  | answers : Fault
  | returnsError : Fault
  | throws : Fault
  deriving DecidableEq, Repr

/-- The `supabase` client as the search sees it: the rows of
`polling_stations` in the order in which the backend returns them, and the
way each of the three queries is answered. -/
structure Supabase where
  polling_stations : List Record
  fault : Tier → Fault

/-- What `await` on a query gives: the `data` member of the response (`none`
for `null`), or a thrown exception. -/
inductive Reply (α : Type) where
  | data : Option α → Reply α
  | thrown : Reply α
  deriving DecidableEq, Repr

/-- A query as sent to the backend: its tier and its operand (the postal code,
or the `ilike` pattern). -/
structure Query where
  tier : Tier
  operand : String
  deriving DecidableEq, Repr

/-- The query `.eq('postal_code', code).limit(1).single()`: the first row with
that postal code; with no such row `single()` reports an error and `data` is
`null`. -/
def selectPostal (sb : Supabase) (code : String) : Reply Record :=
  match sb.fault Tier.postal with
  | Fault.throws => Reply.thrown
  | Fault.returnsError => Reply.data none
  | Fault.answers =>
    Reply.data ((sb.polling_stations.filter (fun r => decide (r.postal_code = code))).head?)

/-- The query `.ilike(column, pattern).limit(1)`: the list of at most one row,
the first whose column matches the pattern. -/
def selectIlike (cm : CaseMap) (sb : Supabase) (tier : Tier) (column : Record → String)
    (pattern : String) : Reply (List Record) :=
  match sb.fault tier with
  | Fault.throws => Reply.thrown
  | Fault.returnsError => Reply.data none
  | Fault.answers =>
    Reply.data (some ((sb.polling_stations.filter (fun r => ilike cm pattern (column r))).take 1))

/-- The state of the component `PollingFinder` (its `useState` cells). -/
structure State where
  address : String
  result : Option Record
  loading : Bool
  error : Option String
  mapCenter : Option Coord × Option Coord
  showMap : Bool
  deriving DecidableEq, Repr

/-- The message set when no tier gives a row. -/
def notFoundMessage : String := "Nem találtuk a címedhez tartozó szavazókört"

/-- The message set by the `catch` block. -/
def searchErrorMessage : String := "Hiba történt a keresés során"

/-- The statements of a found row: `setResult`, `setMapCenter`, `setShowMap`. -/
def showRecord (s : State) (r : Record) : State :=
  { s with result := some r, mapCenter := (r.lat, r.lng), showMap := true }

/-- How the `try` block ends: by `return` or by running to its end (`done`),
or by an exception (`threw`); in each case with the state reached and the
queries sent so far. -/
inductive TryEnd where
  | done : State → List Query → TryEnd
  | threw : State → List Query → TryEnd
  deriving DecidableEq, Repr

/-- The address tier and the final `else` of the `try` block. -/
def addressTier (cm : CaseMap) (sb : Supabase) (searchLower : String) (s : State)
    (log : List Query) : TryEnd :=
  let pattern := containsPattern searchLower
  let log := log ++ [Query.mk Tier.address pattern]
  match selectIlike cm sb Tier.address Record.address pattern with
  | Reply.thrown => TryEnd.threw s log
  | Reply.data (some (r :: _)) => TryEnd.done (showRecord s r) log
  | Reply.data _ => TryEnd.done { s with error := some notFoundMessage, result := none } log

/-- The settlement tier, followed by the address tier when it gives no row. -/
def settlementTier (cm : CaseMap) (sb : Supabase) (searchLower : String) (s : State)
    (log : List Query) : TryEnd :=
  let pattern := containsPattern searchLower
  let log := log ++ [Query.mk Tier.settlement pattern]
  match selectIlike cm sb Tier.settlement Record.settlement pattern with
  | Reply.thrown => TryEnd.threw s log
  | Reply.data (some (r :: _)) => TryEnd.done { showRecord s r with loading := false } log
  | Reply.data _ => addressTier cm sb searchLower s log

/-- The body of the `try` block. -/
def tryBlock (cm : CaseMap) (sb : Supabase) (searchAddress : String) (s : State) : TryEnd :=
  let searchLower := toLowerCase cm searchAddress
  match postalMatch searchAddress with
  | some code =>
    let log := [Query.mk Tier.postal code]
    match selectPostal sb code with
    | Reply.thrown => TryEnd.threw s log
    | Reply.data (some r) => TryEnd.done { showRecord s r with loading := false } log
    | Reply.data none => settlementTier cm sb searchLower s log
  | none => settlementTier cm sb searchLower s []

/-- A completed call: the component state after it and the queries it sent,
in order. -/
structure Run where
  state : State
  queries : List Query
  deriving DecidableEq, Repr

/-- The function `searchPollingStation`, run to completion from the component
state `s`. -/
def searchPollingStation (cm : CaseMap) (sb : Supabase) (searchAddress : String)
    (s : State) : Run :=
  let s := { s with loading := true }
  let s := { s with error := none }
  match tryBlock cm sb searchAddress s with
  | TryEnd.done s log => Run.mk { s with loading := false } log
  | TryEnd.threw s log =>
    let s := { s with error := some searchErrorMessage }
    Run.mk { s with loading := false } log

/-- The `catch` and `finally` blocks applied to the end of the `try` block:
the shape `searchPollingStation` has after its first two statements. -/
def finish : TryEnd → Run
  | TryEnd.done st log => Run.mk { st with loading := false } log
  | TryEnd.threw st log =>
    Run.mk { st with error := some searchErrorMessage, loading := false } log

/-! ## Notions of the specification -/

/-- A row has a valid coordinate pair: `lat` and `lng` are both present. -/
def hasCoordinates (r : Record) : Bool := r.lat.isSome && r.lng.isSome

/-- Digit test at a position that may lie outside the string. -/
def isDigitAt : Option Char → Bool
  | none => false
  | some c => isDigit c

/-- The token of the specification: `tok`, standing between `pre` and `post`,
is a run of exactly four decimal digits bounded on each side by a non-digit
character or a string edge. -/
def DigitBoundedRun (pre tok post : List Char) : Prop :=
  tok.length = 4 ∧ tok.all isDigit = true ∧
    isDigitAt pre.getLast? = false ∧ isDigitAt post.head? = false

/-- The token of the regular expression: a run of exactly four decimal digits
bounded on each side by a character outside `[A-Za-z0-9_]` or a string edge. -/
def WordBoundedRun (pre tok post : List Char) : Prop :=
  tok.length = 4 ∧ tok.all isDigit = true ∧
    isWordAt pre.getLast? = false ∧ isWordAt post.head? = false

/-- The text contains `sub` as a substring: `sub` is a beginning of some
suffix of the text. -/
def includes (text sub : List Char) : Bool :=
  anySuffix (fun u => sub.isPrefixOf u) text

/-- The matching of the specification: the text contains `sub` as a
substring, compared case-insensitively. -/
def containsIgnoreCase (cm : CaseMap) (text sub : String) : Bool :=
  includes (text.data.map cm.lower) (sub.data.map cm.lower)

/-- The characters with a special reading in the operand of `ilike`: the
wildcards `%` and `_`, the escape character, and `*`. -/
def isLikeMeta (c : Char) : Bool := c == '%' || c == '_' || c == '\\' || c == '*'

/-- The first row whose postal code is `code`. -/
def firstByPostalCode (sb : Supabase) (code : String) : Option Record :=
  sb.polling_stations.find? (fun r => decide (r.postal_code = code))

/-- The first row whose column matches the `ilike` pattern. -/
def firstByIlike (cm : CaseMap) (sb : Supabase) (column : Record → String) (pattern : String) :
    Option Record :=
  sb.polling_stations.find? (fun r => ilike cm pattern (column r))

/-- The first row the backend has for a query: by postal code for the postal
tier, by the pattern on the settlement or address column for the other two. -/
def firstRow (cm : CaseMap) (sb : Supabase) (q : Query) : Option Record :=
  match q.tier with
  | Tier.postal => firstByPostalCode sb q.operand
  | Tier.settlement => firstByIlike cm sb Record.settlement q.operand
  | Tier.address => firstByIlike cm sb Record.address q.operand

/-! ## The paths of a call -/

/-- The three ways a call can end. -/
inductive Outcome where
  | found : Record → Outcome
  | notFound : Outcome
  | failed : Outcome
  deriving DecidableEq, Repr

/-- The component state a call that started from `s` leaves behind, for each
way of ending.  A failed call writes `loading` and `error` only. -/
def outcomeState (s : State) : Outcome → State
  | Outcome.found r =>
    { s with result := some r, loading := false, error := none, mapCenter := (r.lat, r.lng),
             showMap := true }
  | Outcome.notFound => { s with result := none, loading := false, error := some notFoundMessage }
  | Outcome.failed => { s with loading := false, error := some searchErrorMessage }

/-- The settlement query of a call. -/
def settlementQuery (cm : CaseMap) (input : String) : Query :=
  Query.mk Tier.settlement (containsPattern (toLowerCase cm input))

/-- The address query of a call. -/
def addressQuery (cm : CaseMap) (input : String) : Query :=
  Query.mk Tier.address (containsPattern (toLowerCase cm input))

/-- The reply to the settlement query of a call. -/
def settlementReply (cm : CaseMap) (sb : Supabase) (input : String) : Reply (List Record) :=
  selectIlike cm sb Tier.settlement Record.settlement (containsPattern (toLowerCase cm input))

/-- The reply to the address query of a call. -/
def addressReply (cm : CaseMap) (sb : Supabase) (input : String) : Reply (List Record) :=
  selectIlike cm sb Tier.address Record.address (containsPattern (toLowerCase cm input))

/-- The postal tier neither returned nor threw: there is no token, or the
query came back without a row.  `pre` is the log it leaves. -/
def PostalPassed (sb : Supabase) (input : String) (pre : List Query) : Prop :=
  (postalMatch input = none ∧ pre = []) ∨
    ∃ code, postalMatch input = some code ∧ selectPostal sb code = Reply.data none ∧
      pre = [Query.mk Tier.postal code]

/-- An `ilike` reply the component reads as no row: `data` is `null` or the
empty array. -/
def NoRows (reply : Reply (List Record)) : Prop :=
  reply = Reply.data none ∨ reply = Reply.data (some [])

/-- The seven paths through `searchPollingStation`, each with the way it ends
and the queries it sends. -/
inductive Path (cm : CaseMap) (sb : Supabase) (input : String) : Outcome → List Query → Prop where
  | postalThrown (code : String) :
      postalMatch input = some code → selectPostal sb code = Reply.thrown →
      Path cm sb input Outcome.failed [Query.mk Tier.postal code]
  | postalFound (code : String) (r : Record) :
      postalMatch input = some code → selectPostal sb code = Reply.data (some r) →
      Path cm sb input (Outcome.found r) [Query.mk Tier.postal code]
  | settlementThrown (pre : List Query) :
      PostalPassed sb input pre → settlementReply cm sb input = Reply.thrown →
      Path cm sb input Outcome.failed (pre ++ [settlementQuery cm input])
  | settlementFound (pre : List Query) (r : Record) (rest : List Record) :
      PostalPassed sb input pre → settlementReply cm sb input = Reply.data (some (r :: rest)) →
      Path cm sb input (Outcome.found r) (pre ++ [settlementQuery cm input])
  | addressThrown (pre : List Query) :
      PostalPassed sb input pre → NoRows (settlementReply cm sb input) →
      addressReply cm sb input = Reply.thrown →
      Path cm sb input Outcome.failed (pre ++ [settlementQuery cm input, addressQuery cm input])
  | addressFound (pre : List Query) (r : Record) (rest : List Record) :
      PostalPassed sb input pre → NoRows (settlementReply cm sb input) →
      addressReply cm sb input = Reply.data (some (r :: rest)) →
      Path cm sb input (Outcome.found r)
        (pre ++ [settlementQuery cm input, addressQuery cm input])
  | notFound (pre : List Query) :
      PostalPassed sb input pre → NoRows (settlementReply cm sb input) →
      NoRows (addressReply cm sb input) →
      Path cm sb input Outcome.notFound
        (pre ++ [settlementQuery cm input, addressQuery cm input])

/-- The character left of a position `pre` characters further on, when `b`
is the character left of the start. -/
def lastOr (b : Option Char) : List Char → Option Char
  | [] => b
  | p :: pre => lastOr (some p) pre

/-- The run `tok` between `pre` and `post` is word-bounded, in a string whose
left neighbour is `b`. -/
def WordBounded (b : Option Char) (pre tok post : List Char) : Prop :=
  tok.length = 4 ∧ (∀ c ∈ tok, isDigit c = true) ∧
    isWordAt (lastOr b pre) = false ∧ isWordAt post.head? = false

/-! ## Concrete values, for evaluation -/

/-- Lower-casing of the letters `A` to `Z`; every other character is kept. -/
def asciiLower (c : Char) : Char :=
  if 65 ≤ c.toNat ∧ c.toNat ≤ 90 then Char.ofNat (c.toNat + 32) else c

/-- The case mapping that folds the letters `A` to `Z` only. -/
def asciiCase : CaseMap where
  lower := asciiLower
  lower_idem := by
    intro c
    have small : ∀ m : Nat, m < 55296 → (Char.ofNat m).toNat = m := by
      intro m h
      have hv : m.isValidChar := Or.inl h
      unfold Char.ofNat
      rw [dif_pos hv]
      rfl
    by_cases h : 65 ≤ c.toNat ∧ c.toNat ≤ 90
    · have e : asciiLower c = Char.ofNat (c.toNat + 32) := by simp [asciiLower, h]
      have hn := small (c.toNat + 32) (by omega)
      have h2 : ¬ (65 ≤ (Char.ofNat (c.toNat + 32)).toNat ∧
          (Char.ofNat (c.toNat + 32)).toNat ≤ 90) := by omega
      rw [e]
      simp [asciiLower, h2]
    · have e : asciiLower c = c := by simp [asciiLower, h]
      rw [e, e]
  lower_percent := by decide

/-- A backend that answers every query. -/
def healthy : Tier → Fault := fun _ => Fault.answers

/-- A backend whose postal-code query comes back with an error object. -/
def postalErrors : Tier → Fault
  | Tier.postal => Fault.returnsError
  | _ => Fault.answers

/-- A backend whose queries all come back with an error object. -/
def allErrors : Tier → Fault := fun _ => Fault.returnsError

/-- A backend on which every awaited query throws. -/
def unreachable : Tier → Fault := fun _ => Fault.throws

/-- The component state before the first search (the `useState` defaults;
coordinates in ten-thousandths of a degree). -/
def idleState : State :=
  { address := "", result := none, loading := false, error := none,
    mapCenter := (some 474979, some 190402), showMap := false }

/-- A station in postal code 1052. -/
def petofi : Record :=
  { postal_code := "1052", settlement := "Budapest", address := "Petőfi utca 10.",
    station_number := "001", district := some "V. kerület",
    lat := some 474930, lng := some 190560 }

/-- A station of postal code 1053 whose address text begins with 1052. -/
def ferenciek : Record :=
  { postal_code := "1053", settlement := "Budapest",
    address := "1052 Budapest, Ferenciek tere 1.", station_number := "002",
    district := none, lat := some 474925, lng := some 190570 }

/-- A station of postal code 1052 whose address text repeats the code. -/
def varoshaz : Record :=
  { postal_code := "1052", settlement := "Budapest",
    address := "1052 Budapest, Városház utca 9.", station_number := "003",
    district := none, lat := some 474940, lng := some 190565 }

/-- A row without coordinates. -/
def tanya : Record :=
  { postal_code := "6000", settlement := "Kecskemét", address := "Tanya 12.",
    station_number := "004", district := none, lat := none, lng := none }

/-- A row with coordinates in the same postal code as `tanya`. -/
def kecskemet : Record :=
  { postal_code := "6000", settlement := "Kecskemét", address := "Kossuth tér 1.",
    station_number := "005", district := none, lat := some 469070, lng := some 196920 }

/-- A settlement whose name continues after the letters of "Duna". -/
def dunaujvaros : Record :=
  { postal_code := "2400", settlement := "Dunaújváros", address := "Városháza tér 1.",
    station_number := "006", district := none, lat := some 469620, lng := some 189350 }

/-- A settlement text that holds an underscore. -/
def dunapart : Record :=
  { postal_code := "2000", settlement := "Duna_part", address := "Part utca 3.",
    station_number := "007", district := none, lat := some 476690, lng := some 190750 }

/-- An address written with a blank. -/
def vac : Record :=
  { postal_code := "2600", settlement := "Vác", address := "Fő utca 1.",
    station_number := "008", district := none, lat := some 477750, lng := some 191310 }

/-- An address written with an underscore. -/
def god : Record :=
  { postal_code := "2131", settlement := "Göd", address := "Fő_utca 2.",
    station_number := "009", district := none, lat := some 476830, lng := some 191340 }

/-- The component state after an earlier search that found `petofi`. -/
def shownState : State :=
  { idleState with result := some petofi, mapCenter := (petofi.lat, petofi.lng), showMap := true }

/-! ## Theorems -/

/-! ### The regular expression -/

theorem isWordAt_some (c : Char) : isWordAt (some c) = isWordChar c := rfl

theorem lastOr_eq (pre : List Char) : ∀ b : Option Char,
    lastOr b pre = match pre.getLast? with
      | some c => some c
      | none => b := by
  induction pre with
  | nil => intro b; rfl
  | cons p pre ih =>
    intro b
    rw [lastOr, ih]
    cases pre with
    | nil => rfl
    | cons q pre =>
      simp only [List.getLast?_cons_cons]
      rcases h : (q :: pre).getLast? with _ | c
      · simp at h
      · rfl

theorem lastOr_none (pre : List Char) : lastOr none pre = pre.getLast? := by
  rw [lastOr_eq]
  cases pre.getLast? <;> rfl

theorem isWordChar_of_isDigit {c : Char} (h : isDigit c = true) : isWordChar c = true := by
  simp [isWordChar, Char.isAlphanum]
  left; right; exact h

theorem lastOr_cons (b : Option Char) (p : Char) (pre : List Char) :
    lastOr b (p :: pre) = lastOr (some p) pre := rfl

theorem matchHere_some {b : Option Char} {xs tok : List Char} (h : matchHere b xs = some tok) :
    ∃ post, xs = tok ++ post ∧ WordBounded b [] tok post := by
  match xs, h with
  | a :: b' :: c :: d :: rest, h =>
    simp only [matchHere] at h
    split at h
    · rename_i hc
      simp only [Bool.and_eq_true] at hc
      obtain ⟨⟨⟨⟨⟨h1, h2⟩, h3⟩, h4⟩, h5⟩, h6⟩ := hc
      cases h
      refine ⟨rest, by simp, by simp, ?_, ?_, ?_⟩
      · intro x hx
        simp at hx
        rcases hx with rfl | rfl | rfl | rfl <;> assumption
      · simp [wordBoundary, isWordAt_some, isWordChar_of_isDigit h2] at h1
        simpa [lastOr] using h1
      · simp [wordBoundary, isWordAt_some, isWordChar_of_isDigit h5] at h6
        simpa using h6
    · cases h

theorem matchHere_of_bounded {b : Option Char} {tok post : List Char}
    (h : WordBounded b [] tok post) : matchHere b (tok ++ post) = some tok := by
  obtain ⟨hlen, hdig, hb, ha⟩ := h
  match tok, hlen with
  | [a, b', c, d], _ =>
    have h1 := hdig a (by simp)
    have h2 := hdig b' (by simp)
    have h3 := hdig c (by simp)
    have h4 := hdig d (by simp)
    simp [lastOr] at hb
    simp [matchHere, wordBoundary, h1, h2, h3, h4, hb, ha, isWordAt_some, isWordChar_of_isDigit]

theorem scanPostal_some {xs tok : List Char} :
    ∀ {b : Option Char}, scanPostal b xs = some tok →
      ∃ pre post, xs = pre ++ tok ++ post ∧ WordBounded b pre tok post := by
  induction xs with
  | nil => intro b h; simp [scanPostal] at h
  | cons c rest ih =>
    intro b h
    simp only [scanPostal] at h
    split at h
    · rename_i t ht
      cases h
      obtain ⟨post, hx, hw⟩ := matchHere_some ht
      exact ⟨[], post, by simpa using hx, hw⟩
    · obtain ⟨pre, post, hx, hw⟩ := ih h
      refine ⟨c :: pre, post, by simp [hx], ?_⟩
      obtain ⟨h1, h2, h3, h4⟩ := hw
      exact ⟨h1, h2, by rw [lastOr_cons]; exact h3, h4⟩

theorem scanPostal_of_bounded {tok post : List Char} (pre : List Char) :
    ∀ {b : Option Char}, WordBounded b pre tok post →
      (scanPostal b (pre ++ tok ++ post)).isSome = true := by
  induction pre with
  | nil =>
    intro b h
    have hm := matchHere_of_bounded h
    obtain ⟨hlen, -⟩ := h
    match tok, hlen with
    | [a, b', c, d], _ =>
      simp only [List.nil_append, List.cons_append] at hm ⊢
      simp [scanPostal, hm]
  | cons p pre ih =>
    intro b h
    simp only [List.cons_append, scanPostal]
    split
    · rfl
    · apply ih
      obtain ⟨h1, h2, h3, h4⟩ := h
      exact ⟨h1, h2, by rw [lastOr_cons] at h3; exact h3, h4⟩

/-! ### The pattern built by the component, for a text without metacharacters -/

theorem likeTokens_lit {c : Char} (h : isLikeMeta c = false) (xs : List Char) :
    likeTokens (c :: xs) = LikeTok.lit c :: likeTokens xs := by
  simp [isLikeMeta] at h
  obtain ⟨⟨⟨h1, h2⟩, h3⟩, -⟩ := h
  cases xs with
  | nil => simp [likeTokens, h1, h2, h3]
  | cons d rest => simp [likeTokens, h1, h2, h3]

theorem likeTokens_percent (xs : List Char) :
    likeTokens ('%' :: xs) = LikeTok.anySeq :: likeTokens xs := by
  cases xs with
  | nil => simp [likeTokens]
  | cons d rest => simp [likeTokens]

theorem likeTokens_plain (l : List Char) (h : ∀ c ∈ l, isLikeMeta c = false) :
    likeTokens (l ++ ['%']) = l.map LikeTok.lit ++ [LikeTok.anySeq] := by
  induction l with
  | nil => simp [likeTokens]
  | cons c l ih =>
    rw [List.cons_append, likeTokens_lit (h c (by simp)), ih (fun d hd => h d (by simp [hd]))]
    rfl

theorem anySuffix_true {k : List Char → Bool} (t : List Char) (h : ∀ u, k u = true) :
    anySuffix k t = true := by
  cases t <;> simp [anySuffix, h]

theorem likeMatch_plain (l : List Char) : ∀ t : List Char,
    likeMatch (l.map LikeTok.lit ++ [LikeTok.anySeq]) t = l.isPrefixOf t := by
  induction l with
  | nil =>
    intro t
    simp only [List.map_nil, List.nil_append, likeMatch, List.isPrefixOf]
    cases t with
    | nil => simp [anySuffix, likeMatch]
    | cons c t =>
      simp only [anySuffix, likeMatch, List.isEmpty_cons, Bool.false_or]
      induction t with
      | nil => simp [anySuffix, likeMatch]
      | cons d t ih => simp [anySuffix, likeMatch, ih]
  | cons c l ih =>
    intro t
    cases t with
    | nil => simp [likeMatch, List.isPrefixOf]
    | cons d t => simp [likeMatch, List.isPrefixOf, ih]

theorem starToPercent_plain (l : List Char) (h : ∀ c ∈ l, isLikeMeta c = false) :
    starToPercent l = l := by
  induction l with
  | nil => rfl
  | cons c l ih =>
    have hc := h c (by simp)
    simp [isLikeMeta] at hc
    have := ih (fun d hd => h d (by simp [hd]))
    simp only [starToPercent] at this ⊢
    simp [this, hc.2]

/-- For a search text without `LIKE` metacharacters after lower-casing, the
`ilike` filter of the component is case-insensitive containment. -/
theorem ilike_containsPattern (cm : CaseMap) (input text : String)
    (h : ∀ c ∈ (toLowerCase cm input).data, isLikeMeta c = false) :
    ilike cm (containsPattern (toLowerCase cm input)) text = containsIgnoreCase cm text input := by
  have hl : (toLowerCase cm input).data = input.data.map cm.lower := rfl
  rw [hl] at h
  have hmap : (input.data.map cm.lower).map cm.lower = input.data.map cm.lower := by
    simp [List.map_map, Function.comp_def, cm.lower_idem]
  simp only [ilike, containsPattern, containsIgnoreCase, includes, hl]
  have hs : starToPercent ('%' :: List.map cm.lower input.data ++ ['%'])
      = '%' :: List.map cm.lower input.data ++ ['%'] := by
    have h1 := starToPercent_plain _ h
    simp only [starToPercent] at h1 ⊢
    simp [h1]
  rw [hs]
  simp only [List.map_cons, List.map_append, hmap, cm.lower_percent, List.map_nil,
    List.cons_append]
  rw [likeTokens_percent, likeTokens_plain _ h]
  simp only [likeMatch]
  congr 1
  funext u
  exact likeMatch_plain _ u

/-! ### The queries on an answering backend -/

theorem head?_filter_eq_find? {α : Type} (p : α → Bool) (l : List α) :
    (l.filter p).head? = l.find? p := by
  induction l with
  | nil => rfl
  | cons a l ih =>
    by_cases h : p a = true
    · simp [List.filter, List.find?, h]
    · simp only [Bool.not_eq_true] at h
      simp [List.filter, List.find?, h, ih]

theorem take_one_filter {α : Type} (p : α → Bool) (l : List α) :
    (l.filter p).take 1 = (l.find? p).toList := by
  rw [← head?_filter_eq_find?]
  cases l.filter p <;> simp

theorem selectPostal_answers {sb : Supabase} (h : sb.fault Tier.postal = Fault.answers)
    (code : String) : selectPostal sb code = Reply.data (firstByPostalCode sb code) := by
  simp [selectPostal, h, firstByPostalCode, head?_filter_eq_find?]

theorem selectIlike_answers (cm : CaseMap) {sb : Supabase} {tier : Tier}
    (h : sb.fault tier = Fault.answers) (column : Record → String) (pattern : String) :
    selectIlike cm sb tier column pattern
      = Reply.data (some (firstByIlike cm sb column pattern).toList) := by
  simp [selectIlike, h, firstByIlike, take_one_filter]

/-- Claim C1, as amended: when the extraction yields a postal-code token, the
postal-code query is answered and the table holds a row with that postal code,
the call ends with `result` set to the first such row and `error` null, and
the postal-code query is the only query it sends, whatever else the input
holds. -/
theorem postal_code_match_found (cm : CaseMap) (sb : Supabase) (input code : String) (s : State)
    (hfault : sb.fault Tier.postal = Fault.answers)
    (htok : postalMatch input = some code)
    (hrec : ∃ r ∈ sb.polling_stations, r.postal_code = code) :
    ∃ r, sb.polling_stations.find? (fun r => decide (r.postal_code = code)) = some r ∧
      (searchPollingStation cm sb input s).state.result = some r ∧
      (searchPollingStation cm sb input s).state.error = none ∧
      (searchPollingStation cm sb input s).queries = [Query.mk Tier.postal code] := by
  obtain ⟨r0, hr0, hc⟩ := hrec
  have hsome : (firstByPostalCode sb code).isSome = true := by
    simp only [firstByPostalCode, List.find?_isSome]
    exact ⟨r0, hr0, by simp [hc]⟩
  obtain ⟨r, hr⟩ := Option.isSome_iff_exists.mp hsome
  refine ⟨r, hr, ?_⟩
  simp [searchPollingStation, tryBlock, htok, selectPostal_answers hfault, hr, showRecord]

/-! ### Every call follows one of the seven paths -/

theorem searchPollingStation_eq_finish (cm : CaseMap) (sb : Supabase) (input : String)
    (s : State) :
    searchPollingStation cm sb input s
      = finish (tryBlock cm sb input { s with loading := true, error := none }) := by
  simp only [searchPollingStation, finish]

theorem addressTier_path (cm : CaseMap) (sb : Supabase) (input : String)
    (pre : List Query) (hp : PostalPassed sb input pre)
    (hs : NoRows (settlementReply cm sb input)) :
    ∃ o log, Path cm sb input o log ∧ ∀ s : State,
      finish (addressTier cm sb (toLowerCase cm input) { s with loading := true, error := none }
          (pre ++ [settlementQuery cm input])) = Run.mk (outcomeState s o) log := by
  have hlog : pre ++ [settlementQuery cm input] ++
      [Query.mk Tier.address (containsPattern (toLowerCase cm input))]
      = pre ++ [settlementQuery cm input, addressQuery cm input] := by
    simp [addressQuery]
  simp only [addressTier, hlog]
  rcases h : addressReply cm sb input with d | _
  · rcases d with _ | rows
    · refine ⟨_, _, Path.notFound pre hp hs (Or.inl h), fun s => ?_⟩
      simp only [addressReply] at h
      simp only [h]
      rfl
    · rcases rows with _ | ⟨r, rest⟩
      · refine ⟨_, _, Path.notFound pre hp hs (Or.inr h), fun s => ?_⟩
        simp only [addressReply] at h
        simp only [h]
        rfl
      · refine ⟨_, _, Path.addressFound pre r rest hp hs h, fun s => ?_⟩
        simp only [addressReply] at h
        simp only [h]
        rfl
  · refine ⟨_, _, Path.addressThrown pre hp hs h, fun s => ?_⟩
    simp only [addressReply] at h
    simp only [h]
    rfl

theorem settlementTier_path (cm : CaseMap) (sb : Supabase) (input : String)
    (pre : List Query) (hp : PostalPassed sb input pre) :
    ∃ o log, Path cm sb input o log ∧ ∀ s : State,
      finish (settlementTier cm sb (toLowerCase cm input) { s with loading := true, error := none }
          pre) = Run.mk (outcomeState s o) log := by
  have hq : Query.mk Tier.settlement (containsPattern (toLowerCase cm input))
      = settlementQuery cm input := rfl
  simp only [settlementTier, hq]
  rcases h : settlementReply cm sb input with d | _
  · rcases d with _ | rows
    · obtain ⟨o, log, hpath, hrun⟩ := addressTier_path cm sb input pre hp (Or.inl h)
      refine ⟨o, log, hpath, fun s => ?_⟩
      simp only [settlementReply] at h
      simp only [h]
      exact hrun s
    · rcases rows with _ | ⟨r, rest⟩
      · obtain ⟨o, log, hpath, hrun⟩ := addressTier_path cm sb input pre hp (Or.inr h)
        refine ⟨o, log, hpath, fun s => ?_⟩
        simp only [settlementReply] at h
        simp only [h]
        exact hrun s
      · refine ⟨_, _, Path.settlementFound pre r rest hp h, fun s => ?_⟩
        simp only [settlementReply] at h
        simp only [h]
        rfl
  · refine ⟨_, _, Path.settlementThrown pre hp h, fun s => ?_⟩
    simp only [settlementReply] at h
    simp only [h]
    rfl

/-- Every completed call follows one of the seven paths, and the path does not
depend on the component state the call starts from. -/
theorem searchPollingStation_path (cm : CaseMap) (sb : Supabase) (input : String) :
    ∃ o log, Path cm sb input o log ∧
      ∀ s : State, searchPollingStation cm sb input s = Run.mk (outcomeState s o) log := by
  simp only [searchPollingStation_eq_finish, tryBlock]
  rcases hm : postalMatch input with _ | code
  · exact settlementTier_path cm sb input [] (Or.inl ⟨hm, rfl⟩)
  · simp only []
    rcases h : selectPostal sb code with d | _
    · rcases d with _ | r
      · exact settlementTier_path cm sb input _ (Or.inr ⟨code, hm, h, rfl⟩)
      · exact ⟨_, _, Path.postalFound code r hm h, fun s => rfl⟩
    · exact ⟨_, _, Path.postalThrown code hm h, fun s => rfl⟩

/-! ### What the replies say about the backend -/

theorem selectPostal_thrown_iff {sb : Supabase} {code : String} :
    selectPostal sb code = Reply.thrown ↔ sb.fault Tier.postal = Fault.throws := by
  unfold selectPostal
  rcases h : sb.fault Tier.postal <;> simp

theorem selectPostal_some {sb : Supabase} {code : String} {r : Record}
    (h : selectPostal sb code = Reply.data (some r)) :
    sb.fault Tier.postal = Fault.answers ∧ firstByPostalCode sb code = some r := by
  unfold selectPostal at h
  rcases hf : sb.fault Tier.postal <;> simp [hf, head?_filter_eq_find?] at h
  exact ⟨rfl, h⟩

theorem selectPostal_none {sb : Supabase} {code : String}
    (h : selectPostal sb code = Reply.data none) :
    sb.fault Tier.postal ≠ Fault.throws ∧
      (sb.fault Tier.postal = Fault.answers → firstByPostalCode sb code = none) := by
  unfold selectPostal at h
  rcases hf : sb.fault Tier.postal <;> simp [hf, head?_filter_eq_find?] at h ⊢
  simpa [firstByPostalCode] using h

theorem selectIlike_thrown_iff {cm : CaseMap} {sb : Supabase} {tier : Tier}
    {column : Record → String} {pattern : String} :
    selectIlike cm sb tier column pattern = Reply.thrown ↔ sb.fault tier = Fault.throws := by
  unfold selectIlike
  rcases h : sb.fault tier <;> simp

theorem selectIlike_cons {cm : CaseMap} {sb : Supabase} {tier : Tier}
    {column : Record → String} {pattern : String} {r : Record} {rest : List Record}
    (h : selectIlike cm sb tier column pattern = Reply.data (some (r :: rest))) :
    sb.fault tier = Fault.answers ∧ firstByIlike cm sb column pattern = some r := by
  unfold selectIlike at h
  rcases hf : sb.fault tier <;> simp [hf, take_one_filter] at h
  refine ⟨rfl, ?_⟩
  unfold firstByIlike
  rcases hx : List.find? (fun r => ilike cm pattern (column r)) sb.polling_stations with _ | x
  · simp [hx] at h
  · simp [hx] at h
    rw [h.1]

theorem noRows_selectIlike {cm : CaseMap} {sb : Supabase} {tier : Tier}
    {column : Record → String} {pattern : String}
    (h : NoRows (selectIlike cm sb tier column pattern)) :
    sb.fault tier ≠ Fault.throws ∧
      (sb.fault tier = Fault.answers → firstByIlike cm sb column pattern = none) := by
  unfold NoRows selectIlike at h
  rcases hf : sb.fault tier <;> simp [hf, take_one_filter] at h ⊢
  unfold firstByIlike
  rcases hx : List.find? (fun r => ilike cm pattern (column r)) sb.polling_stations with _ | x
  · rfl
  · simp [hx] at h

theorem postalPassed_fault {sb : Supabase} {input : String} {pre : List Query}
    (h : PostalPassed sb input pre) : ∀ q ∈ pre, sb.fault q.tier ≠ Fault.throws := by
  rcases h with ⟨-, rfl⟩ | ⟨code, -, hsel, rfl⟩
  · simp
  · intro q hq
    simp at hq
    subst hq
    exact (selectPostal_none hsel).1

/-! ### The tiers on an answering backend -/

theorem containsIgnoreCase_toLowerCase (cm : CaseMap) (text input : String) :
    containsIgnoreCase cm text (toLowerCase cm input) = containsIgnoreCase cm text input := by
  simp [containsIgnoreCase, toLowerCase, List.map_map, Function.comp_def, cm.lower_idem]

theorem firstByIlike_plain (cm : CaseMap) (sb : Supabase) (column : Record → String)
    (input : String) (h : ∀ c ∈ (toLowerCase cm input).data, isLikeMeta c = false) :
    firstByIlike cm sb column (containsPattern (toLowerCase cm input))
      = sb.polling_stations.find? (fun r => containsIgnoreCase cm (column r) input) := by
  unfold firstByIlike
  congr 1
  funext r
  exact ilike_containsPattern cm input (column r) h

theorem find?_some_of_exists {α : Type} (p : α → Bool) (l : List α)
    (h : ∃ a ∈ l, p a = true) : ∃ a, l.find? p = some a := by
  have : (l.find? p).isSome = true := by
    simp only [List.find?_isSome]; exact h
  exact Option.isSome_iff_exists.mp this

theorem find?_none_of_forall {α : Type} (p : α → Bool) (l : List α)
    (h : ∀ a ∈ l, p a = false) : l.find? p = none := by
  simp only [List.find?_eq_none]
  intro a ha; simp [h a ha]

/-- Claim C2, as amended: when the input yields a postal-code token that no row
carries and every query is answered, the call goes on to the settlement and
address tiers.  It ends with the first row whose settlement matches the
pattern; failing that with the first row whose address matches it; and in the
not-found outcome only when neither tier has a matching row. -/
theorem empty_postal_query_falls_through (cm : CaseMap) (sb : Supabase) (input code : String)
    (s : State)
    (hfault : ∀ t, sb.fault t = Fault.answers)
    (htok : postalMatch input = some code)
    (hnone : ∀ r ∈ sb.polling_stations, r.postal_code ≠ code) :
    (∀ r, firstByIlike cm sb Record.settlement (containsPattern (toLowerCase cm input)) = some r →
        (searchPollingStation cm sb input s).state.result = some r ∧
        (searchPollingStation cm sb input s).state.error = none ∧
        (searchPollingStation cm sb input s).queries
          = [Query.mk Tier.postal code, settlementQuery cm input]) ∧
    (firstByIlike cm sb Record.settlement (containsPattern (toLowerCase cm input)) = none →
      ∀ r, firstByIlike cm sb Record.address (containsPattern (toLowerCase cm input)) = some r →
        (searchPollingStation cm sb input s).state.result = some r ∧
        (searchPollingStation cm sb input s).state.error = none ∧
        (searchPollingStation cm sb input s).queries
          = [Query.mk Tier.postal code, settlementQuery cm input, addressQuery cm input]) ∧
    (firstByIlike cm sb Record.settlement (containsPattern (toLowerCase cm input)) = none →
      firstByIlike cm sb Record.address (containsPattern (toLowerCase cm input)) = none →
        (searchPollingStation cm sb input s).state.result = none ∧
        (searchPollingStation cm sb input s).state.error = some notFoundMessage ∧
        (searchPollingStation cm sb input s).queries
          = [Query.mk Tier.postal code, settlementQuery cm input, addressQuery cm input]) := by
  have hp : firstByPostalCode sb code = none :=
    find?_none_of_forall _ _ (fun r hr => by simpa using hnone r hr)
  refine ⟨?_, ?_, ?_⟩
  · intro r h1
    simp [searchPollingStation, tryBlock, settlementTier, htok, selectPostal_answers (hfault _),
      selectIlike_answers cm (hfault _), hp, h1, showRecord, settlementQuery]
  · intro h1 r h2
    simp [searchPollingStation, tryBlock, settlementTier, addressTier, htok,
      selectPostal_answers (hfault _), selectIlike_answers cm (hfault _), hp, h1, h2, showRecord,
      settlementQuery, addressQuery]
  · intro h1 h2
    simp [searchPollingStation, tryBlock, settlementTier, addressTier, htok,
      selectPostal_answers (hfault _), selectIlike_answers cm (hfault _), hp, h1, h2,
      settlementQuery, addressQuery]

/-- Claim C6, as amended: for an input without a postal-code token whose
lower-cased form holds no `ILIKE` metacharacter, if the settlement query is
answered and some row's settlement contains the input case-insensitively, the
call ends with `result` set to the first row whose settlement contains the
lower-cased input and `error` null, and the settlement query is the only query
it sends. -/
theorem settlement_match_found (cm : CaseMap) (sb : Supabase) (input : String) (s : State)
    (hfault : sb.fault Tier.settlement = Fault.answers)
    (htok : postalMatch input = none)
    (hplain : ∀ c ∈ (toLowerCase cm input).data, isLikeMeta c = false)
    (hrec : ∃ r ∈ sb.polling_stations, containsIgnoreCase cm r.settlement input = true) :
    ∃ r, sb.polling_stations.find?
          (fun r => containsIgnoreCase cm r.settlement (toLowerCase cm input)) = some r ∧
      (searchPollingStation cm sb input s).state.result = some r ∧
      (searchPollingStation cm sb input s).state.error = none ∧
      (searchPollingStation cm sb input s).queries = [settlementQuery cm input] := by
  obtain ⟨r, hr⟩ := find?_some_of_exists _ _ hrec
  have h1 := firstByIlike_plain cm sb Record.settlement input hplain
  rw [hr] at h1
  refine ⟨r, by simpa [containsIgnoreCase_toLowerCase] using hr, ?_⟩
  simp [searchPollingStation, tryBlock, settlementTier, htok, selectIlike_answers cm hfault, h1,
    showRecord, settlementQuery]

/-- Claim C8, as amended: for an input whose lower-cased form holds no `ILIKE`
metacharacter, if every query is answered and no row matches by postal code,
by settlement substring or by address substring, the call ends with `result`
null and `error` the not-found message. -/
theorem no_match_not_found (cm : CaseMap) (sb : Supabase) (input : String) (s : State)
    (hfault : ∀ t, sb.fault t = Fault.answers)
    (hplain : ∀ c ∈ (toLowerCase cm input).data, isLikeMeta c = false)
    (hpostal : ∀ code, postalMatch input = some code →
      ∀ r ∈ sb.polling_stations, r.postal_code ≠ code)
    (hsettlement : ∀ r ∈ sb.polling_stations, containsIgnoreCase cm r.settlement input = false)
    (haddress : ∀ r ∈ sb.polling_stations, containsIgnoreCase cm r.address input = false) :
    (searchPollingStation cm sb input s).state.result = none ∧
      (searchPollingStation cm sb input s).state.error = some notFoundMessage := by
  have h1 := firstByIlike_plain cm sb Record.settlement input hplain
  rw [find?_none_of_forall _ _ hsettlement] at h1
  have h2 := firstByIlike_plain cm sb Record.address input hplain
  rw [find?_none_of_forall _ _ haddress] at h2
  rcases htok : postalMatch input with _ | code
  · simp [searchPollingStation, tryBlock, settlementTier, addressTier, htok,
      selectIlike_answers cm (hfault _), h1, h2]
  · have hp : firstByPostalCode sb code = none :=
      find?_none_of_forall _ _ (fun r hr => by simpa using hpostal code htok r hr)
    simp [searchPollingStation, tryBlock, settlementTier, addressTier, htok,
      selectPostal_answers (hfault _), selectIlike_answers cm (hfault _), hp, h1, h2]

/-- Claim C7, as amended: for an input whose lower-cased form holds no `ILIKE`
metacharacter, with every query answered and no row found by the postal-code
tier: if no settlement contains the input and some address does, the call ends
with the first row whose address contains the lower-cased input, the address
query being the last one sent; and if some settlement contains the input, the
call ends with the first row whose settlement contains it and sends no address
query, whether or not an address matches too. -/
theorem address_tier_after_settlement (cm : CaseMap) (sb : Supabase) (input : String) (s : State)
    (hfault : ∀ t, sb.fault t = Fault.answers)
    (hplain : ∀ c ∈ (toLowerCase cm input).data, isLikeMeta c = false)
    (hpostal : ∀ code, postalMatch input = some code →
      ∀ r ∈ sb.polling_stations, r.postal_code ≠ code) :
    ((∀ r ∈ sb.polling_stations, containsIgnoreCase cm r.settlement input = false) →
      (∃ r ∈ sb.polling_stations, containsIgnoreCase cm r.address input = true) →
      ∃ r, sb.polling_stations.find?
            (fun r => containsIgnoreCase cm r.address (toLowerCase cm input)) = some r ∧
        (searchPollingStation cm sb input s).state.result = some r ∧
        (searchPollingStation cm sb input s).state.error = none ∧
        (searchPollingStation cm sb input s).queries.getLast? = some (addressQuery cm input)) ∧
    ((∃ r ∈ sb.polling_stations, containsIgnoreCase cm r.settlement input = true) →
      ∃ r, sb.polling_stations.find?
            (fun r => containsIgnoreCase cm r.settlement (toLowerCase cm input)) = some r ∧
        (searchPollingStation cm sb input s).state.result = some r ∧
        (searchPollingStation cm sb input s).state.error = none ∧
        ∀ q ∈ (searchPollingStation cm sb input s).queries, q.tier ≠ Tier.address) := by
  have h1 := firstByIlike_plain cm sb Record.settlement input hplain
  have h2 := firstByIlike_plain cm sb Record.address input hplain
  constructor
  · intro hs ha
    rw [find?_none_of_forall _ _ hs] at h1
    obtain ⟨r, hr⟩ := find?_some_of_exists _ _ ha
    rw [hr] at h2
    refine ⟨r, by simpa [containsIgnoreCase_toLowerCase] using hr, ?_⟩
    rcases htok : postalMatch input with _ | code
    · simp [searchPollingStation, tryBlock, settlementTier, addressTier, htok,
        selectIlike_answers cm (hfault _), h1, h2, showRecord, addressQuery]
    · have hp : firstByPostalCode sb code = none :=
        find?_none_of_forall _ _ (fun r hr => by simpa using hpostal code htok r hr)
      simp [searchPollingStation, tryBlock, settlementTier, addressTier, htok,
        selectPostal_answers (hfault _), selectIlike_answers cm (hfault _), hp, h1, h2,
        showRecord, addressQuery]
  · intro hs
    obtain ⟨r, hr⟩ := find?_some_of_exists _ _ hs
    rw [hr] at h1
    refine ⟨r, by simpa [containsIgnoreCase_toLowerCase] using hr, ?_⟩
    rcases htok : postalMatch input with _ | code
    · simp [searchPollingStation, tryBlock, settlementTier, htok,
        selectIlike_answers cm (hfault _), h1, showRecord]
    · have hp : firstByPostalCode sb code = none :=
        find?_none_of_forall _ _ (fun r hr => by simpa using hpostal code htok r hr)
      simp [searchPollingStation, tryBlock, settlementTier, htok,
        selectPostal_answers (hfault _), selectIlike_answers cm (hfault _), hp, h1, showRecord]

/-! ### Properties of all paths -/

theorem path_found_mem {cm : CaseMap} {sb : Supabase} {input : String} {r : Record}
    {log : List Query} (h : Path cm sb input (Outcome.found r) log) :
    r ∈ sb.polling_stations := by
  cases h with
  | postalFound code _ hm hsel =>
    have := (selectPostal_some hsel).2
    exact List.mem_of_find?_eq_some this
  | settlementFound pre _ rest hp hsel =>
    have := (selectIlike_cons hsel).2
    exact List.mem_of_find?_eq_some this
  | addressFound pre _ rest hp hs hsel =>
    have := (selectIlike_cons hsel).2
    exact List.mem_of_find?_eq_some this

/-- Claim C5, as amended: the search does not look at coordinates.  A call
that ends without an error has stored the first row the backend has for the
last query it sent, a row of the table, whether or not that row has `lat` and
`lng`; the stored row has both whenever every row of the table has. -/
theorem stored_result_is_first_row (cm : CaseMap) (sb : Supabase) (input : String)
    (s : State)
    (hfound : (searchPollingStation cm sb input s).state.error = none) :
    ∃ r q, (searchPollingStation cm sb input s).state.result = some r ∧
      (searchPollingStation cm sb input s).queries.getLast? = some q ∧
      firstRow cm sb q = some r ∧ r ∈ sb.polling_stations ∧
      ((∀ r' ∈ sb.polling_stations, hasCoordinates r' = true) → hasCoordinates r = true) := by
  obtain ⟨o, log, hpath, hrun⟩ := searchPollingStation_path cm sb input
  rw [hrun s] at hfound ⊢
  cases hpath with
  | postalThrown code hm hsel => simp [outcomeState] at hfound
  | settlementThrown pre hp hsel => simp [outcomeState] at hfound
  | addressThrown pre hp hs hsel => simp [outcomeState] at hfound
  | notFound pre hp hs ha => simp [outcomeState] at hfound
  | postalFound code r hm hsel =>
    have hf := (selectPostal_some hsel).2
    have hmem : r ∈ sb.polling_stations := List.mem_of_find?_eq_some hf
    exact ⟨r, Query.mk Tier.postal code, rfl, rfl, hf, hmem, fun hall => hall r hmem⟩
  | settlementFound pre r rest hp hsel =>
    have hf := (selectIlike_cons hsel).2
    have hmem : r ∈ sb.polling_stations := List.mem_of_find?_eq_some hf
    exact ⟨r, settlementQuery cm input, rfl, by simp, hf, hmem, fun hall => hall r hmem⟩
  | addressFound pre r rest hp hs hsel =>
    have hf := (selectIlike_cons hsel).2
    have hmem : r ∈ sb.polling_stations := List.mem_of_find?_eq_some hf
    exact ⟨r, addressQuery cm input, rfl, by simp, hf, hmem, fun hall => hall r hmem⟩

theorem path_failed {cm : CaseMap} {sb : Supabase} {input : String} {log : List Query}
    (h : Path cm sb input Outcome.failed log) :
    ∃ init q, log = init ++ [q] ∧ sb.fault q.tier = Fault.throws ∧
      ∀ q' ∈ init, sb.fault q'.tier ≠ Fault.throws := by
  cases h with
  | postalThrown code hm hsel =>
    exact ⟨[], _, rfl, selectPostal_thrown_iff.mp hsel, by simp⟩
  | settlementThrown pre hp hsel =>
    exact ⟨pre, _, rfl, selectIlike_thrown_iff.mp hsel, postalPassed_fault hp⟩
  | addressThrown pre hp hs hsel =>
    refine ⟨pre ++ [settlementQuery cm input], addressQuery cm input, by simp,
      selectIlike_thrown_iff.mp hsel, ?_⟩
    intro q hq
    rcases List.mem_append.mp hq with hq | hq
    · exact postalPassed_fault hp q hq
    · simp at hq
      subst hq
      exact (noRows_selectIlike hs).1

theorem path_not_failed {cm : CaseMap} {sb : Supabase} {input : String} {o : Outcome}
    {log : List Query} (h : Path cm sb input o log) (ho : o ≠ Outcome.failed) :
    ∀ q ∈ log, sb.fault q.tier ≠ Fault.throws := by
  cases h with
  | postalThrown code hm hsel => exact absurd rfl ho
  | settlementThrown pre hp hsel => exact absurd rfl ho
  | addressThrown pre hp hs hsel => exact absurd rfl ho
  | postalFound code r hm hsel =>
    intro q hq
    simp at hq
    subst hq
    rw [(selectPostal_some hsel).1]; simp
  | settlementFound pre r rest hp hsel =>
    intro q hq
    rcases List.mem_append.mp hq with hq | hq
    · exact postalPassed_fault hp q hq
    · simp at hq
      subst hq
      show sb.fault Tier.settlement ≠ Fault.throws
      rw [(selectIlike_cons hsel).1]; simp
  | addressFound pre r rest hp hs hsel =>
    intro q hq
    rcases List.mem_append.mp hq with hq | hq
    · exact postalPassed_fault hp q hq
    · simp at hq
      rcases hq with rfl | rfl
      · exact (noRows_selectIlike hs).1
      · show sb.fault Tier.address ≠ Fault.throws
        rw [(selectIlike_cons hsel).1]; simp
  | notFound pre hp hs ha =>
    intro q hq
    rcases List.mem_append.mp hq with hq | hq
    · exact postalPassed_fault hp q hq
    · simp at hq
      rcases hq with rfl | rfl
      · exact (noRows_selectIlike hs).1
      · exact (noRows_selectIlike ha).1

/-- The thrown path of the code: if a query the call sends throws, the `catch`
block sets the search-error message and writes nothing else, and that query is
the last one sent. -/
theorem thrown_query_gives_search_error (cm : CaseMap) (sb : Supabase) (input : String)
    (s : State) (q : Query)
    (hq : q ∈ (searchPollingStation cm sb input s).queries)
    (hthrow : sb.fault q.tier = Fault.throws) :
    (searchPollingStation cm sb input s).state.error = some searchErrorMessage ∧
      (searchPollingStation cm sb input s).state.error ≠ some notFoundMessage ∧
      (searchPollingStation cm sb input s).state.result = s.result ∧
      (searchPollingStation cm sb input s).queries.getLast? = some q := by
  obtain ⟨o, log, hpath, hrun⟩ := searchPollingStation_path cm sb input
  rw [hrun s] at hq ⊢
  simp only at hq ⊢
  by_cases ho : o = Outcome.failed
  · subst ho
    obtain ⟨init, q0, rfl, -, hinit⟩ := path_failed hpath
    have hq0 : q = q0 := by
      rcases List.mem_append.mp hq with h | h
      · exact absurd hthrow (hinit q h)
      · simpa using h
    subst hq0
    refine ⟨rfl, ?_, rfl, by simp⟩
    simp only [outcomeState]
    decide
  · exact absurd hthrow (path_not_failed hpath ho q hq)

/-! ### The extracted token -/

theorem wordBoundedRun_iff (pre tok post : List Char) :
    WordBoundedRun pre tok post ↔ WordBounded none pre tok post := by
  simp only [WordBoundedRun, WordBounded, lastOr_none, List.all_eq_true]

theorem isDigitAt_of_isWordAt {x : Option Char} (h : isWordAt x = false) :
    isDigitAt x = false := by
  cases x with
  | none => rfl
  | some c =>
    simp only [isWordAt, isDigitAt] at h ⊢
    cases hd : isDigit c
    · rfl
    · rw [isWordChar_of_isDigit hd] at h; cases h

theorem digitBounded_of_wordBounded {pre tok post : List Char}
    (h : WordBoundedRun pre tok post) : DigitBoundedRun pre tok post :=
  ⟨h.1, h.2.1, isDigitAt_of_isWordAt h.2.2.1, isDigitAt_of_isWordAt h.2.2.2⟩

/-- Claim C4, as amended: the extraction yields a token exactly when the
input contains a run of four decimal digits bounded on each side by a
character outside `[A-Za-z0-9_]` or a string edge; a token it yields is such a
run, and so is bounded by non-digits and is no part of a longer digit run. -/
theorem postalMatch_iff_word_bounded_run (s : String) :
    ((postalMatch s).isSome = true ↔
        ∃ pre tok post, s.data = pre ++ tok ++ post ∧ WordBoundedRun pre tok post) ∧
      ∀ t, postalMatch s = some t →
        ∃ pre post, s.data = pre ++ t.data ++ post ∧ WordBoundedRun pre t.data post ∧
          DigitBoundedRun pre t.data post := by
  constructor
  · constructor
    · intro h
      rcases hs : scanPostal none s.data with _ | tok
      · simp [postalMatch, hs] at h
      · obtain ⟨pre, post, hx, hw⟩ := scanPostal_some hs
        exact ⟨pre, tok, post, hx, (wordBoundedRun_iff _ _ _).mpr hw⟩
    · rintro ⟨pre, tok, post, hx, hw⟩
      have := scanPostal_of_bounded pre ((wordBoundedRun_iff _ _ _).mp hw)
      rw [← hx] at this
      simpa [postalMatch] using this
  · intro t ht
    rcases hs : scanPostal none s.data with _ | tok
    · simp [postalMatch, hs] at ht
    · simp only [postalMatch, hs, Option.map_some', Option.some.injEq] at ht
      subst ht
      obtain ⟨pre, post, hx, hw⟩ := scanPostal_some hs
      have hw' := (wordBoundedRun_iff _ _ _).mpr hw
      exact ⟨pre, post, hx, hw', digitBounded_of_wordBounded hw'⟩

/-- Claim C4 fails as stated: in `a1234` the run `1234` is bounded by a
non-digit and the string edge, yet the extraction yields no token. -/
theorem letter_before_digits_is_no_token :
    ¬ ((postalMatch "a1234").isSome = true ↔
        ∃ pre tok post, "a1234".data = pre ++ tok ++ post ∧ DigitBoundedRun pre tok post) := by
  intro h
  have hrun : ∃ pre tok post, "a1234".data = pre ++ tok ++ post ∧ DigitBoundedRun pre tok post :=
    ⟨['a'], ['1', '2', '3', '4'], [], by decide, by decide, by decide, by decide, by decide⟩
  have := h.mpr hrun
  revert this
  decide

/-! ### Containment, and the dependence on the starting state -/

theorem anySuffix_iff (k : List Char → Bool) (t : List Char) :
    anySuffix k t = true ↔ ∃ u, u <:+ t ∧ k u = true := by
  induction t with
  | nil =>
    simp only [anySuffix]
    constructor
    · intro h; exact ⟨[], List.suffix_refl _, h⟩
    · rintro ⟨u, hu, hk⟩
      have : u = [] := List.eq_nil_of_suffix_nil hu
      subst this; exact hk
  | cons c t ih =>
    simp only [anySuffix, Bool.or_eq_true, ih]
    constructor
    · rintro (h | ⟨u, hu, hk⟩)
      · exact ⟨c :: t, List.suffix_refl _, h⟩
      · exact ⟨u, hu.trans (List.suffix_cons c t), hk⟩
    · rintro ⟨u, hu, hk⟩
      rcases List.suffix_cons_iff.mp hu with rfl | hu
      · exact Or.inl hk
      · exact Or.inr ⟨u, hu, hk⟩

/-- The containment test is the substring relation of lists. -/
theorem includes_iff_infix (text sub : List Char) :
    includes text sub = true ↔ sub <:+: text := by
  simp only [includes, anySuffix_iff, List.isPrefixOf_iff_prefix, List.infix_iff_prefix_suffix]
  constructor
  · rintro ⟨u, hu, hp⟩; exact ⟨u, hp, hu⟩
  · rintro ⟨u, hp, hu⟩; exact ⟨u, hu, hp⟩

theorem path_failed_iff_throw {cm : CaseMap} {sb : Supabase} {input : String} {o : Outcome}
    {log : List Query} (h : Path cm sb input o log) (hno : ∀ t, sb.fault t ≠ Fault.throws) :
    o ≠ Outcome.failed := by
  rintro rfl
  obtain ⟨init, q, -, hq, -⟩ := path_failed h
  exact hno _ hq

/-- Without a thrown query the displayed outcome does not depend on the state
the call starts from. -/
theorem outcome_independent_without_throw (cm : CaseMap) (sb : Supabase) (input : String)
    (s s' : State) (hno : ∀ t, sb.fault t ≠ Fault.throws) :
    (searchPollingStation cm sb input s).state.result
        = (searchPollingStation cm sb input s').state.result ∧
      (searchPollingStation cm sb input s).state.error
        = (searchPollingStation cm sb input s').state.error := by
  obtain ⟨o, log, hpath, hrun⟩ := searchPollingStation_path cm sb input
  have ho := path_failed_iff_throw hpath hno
  rw [hrun s, hrun s']
  cases o with
  | found r => exact ⟨rfl, rfl⟩
  | notFound => exact ⟨rfl, rfl⟩
  | failed => exact absurd rfl ho

/-- The error message and the query log never depend on the state the call
starts from. -/
theorem error_independent_of_prior_state (cm : CaseMap) (sb : Supabase) (input : String)
    (s s' : State) :
    (searchPollingStation cm sb input s).state.error
        = (searchPollingStation cm sb input s').state.error ∧
      (searchPollingStation cm sb input s).queries
        = (searchPollingStation cm sb input s').queries := by
  obtain ⟨o, log, -, hrun⟩ := searchPollingStation_path cm sb input
  rw [hrun s, hrun s']
  cases o <;> exact ⟨rfl, rfl⟩

/-- After every completed call `loading` is false. -/
theorem loading_false_after_call (cm : CaseMap) (sb : Supabase) (input : String) (s : State) :
    (searchPollingStation cm sb input s).state.loading = false := by
  obtain ⟨o, log, -, hrun⟩ := searchPollingStation_path cm sb input
  rw [hrun s]
  cases o <;> rfl

/-- Without a thrown query exactly one of `result` and `error` is set. -/
theorem exactly_one_without_throw (cm : CaseMap) (sb : Supabase) (input : String)
    (s : State) (hno : ∀ t, sb.fault t ≠ Fault.throws) :
    ((searchPollingStation cm sb input s).state.result.isSome
      != (searchPollingStation cm sb input s).state.error.isSome) = true := by
  obtain ⟨o, log, hpath, hrun⟩ := searchPollingStation_path cm sb input
  have ho := path_failed_iff_throw hpath hno
  rw [hrun s]
  cases o with
  | found r => rfl
  | notFound => rfl
  | failed => exact absurd rfl ho

/-! ### Evaluations at concrete inputs -/

/-- Claim C1 fails as stated: the input contains the token 6000, a postal
code the table holds, but the extraction yields the earlier token 1052 only;
the call sends all three queries and ends in the not-found outcome. -/
theorem later_token_is_not_searched :
    (∃ pre post, "1052 vagy 6000".data = pre ++ "6000".data ++ post ∧
        DigitBoundedRun pre "6000".data post ∧ WordBoundedRun pre "6000".data post) ∧
      (∃ r ∈ [kecskemet], r.postal_code = "6000") ∧
      (searchPollingStation asciiCase ⟨[kecskemet], healthy⟩ "1052 vagy 6000"
          idleState).state.result = none ∧
      (searchPollingStation asciiCase ⟨[kecskemet], healthy⟩ "1052 vagy 6000"
          idleState).state.error = some notFoundMessage ∧
      (searchPollingStation asciiCase ⟨[kecskemet], healthy⟩ "1052 vagy 6000"
          idleState).queries
        = [Query.mk Tier.postal "1052", Query.mk Tier.settlement "%1052 vagy 6000%",
            Query.mk Tier.address "%1052 vagy 6000%"] := by
  refine ⟨⟨"1052 vagy ".data, [], by decide, ?_, ?_⟩, ⟨kecskemet, by decide, rfl⟩, ?_, ?_, ?_⟩
  · exact ⟨by decide, by decide, by decide, by decide⟩
  · exact ⟨by decide, by decide, by decide, by decide⟩
  · decide
  · decide
  · decide

/-- Claim C1, as amended, at the placeholder input of the form: the row of
postal code 1052 is found by the postal-code query alone. -/
theorem postal_code_match_found_witness :
    ∃ r, [petofi, kecskemet].find? (fun r => decide (r.postal_code = "1052")) = some r ∧
      (searchPollingStation asciiCase ⟨[petofi, kecskemet], healthy⟩
          "1052 Budapest, Petőfi utca 10." idleState).state.result = some r ∧
      (searchPollingStation asciiCase ⟨[petofi, kecskemet], healthy⟩
          "1052 Budapest, Petőfi utca 10." idleState).state.error = none ∧
      (searchPollingStation asciiCase ⟨[petofi, kecskemet], healthy⟩
          "1052 Budapest, Petőfi utca 10." idleState).queries = [Query.mk Tier.postal "1052"] :=
  postal_code_match_found asciiCase ⟨[petofi, kecskemet], healthy⟩
    "1052 Budapest, Petőfi utca 10." "1052" idleState rfl (by decide) ⟨petofi, by decide, rfl⟩

/-- Claim C2 fails as stated: no row carries the postal code 1052, yet the
call ends with a row (found by the address tier) and no error. -/
theorem absent_postal_code_still_found :
    postalMatch "1052" = some "1052" ∧
      (∀ r ∈ [ferenciek], r.postal_code ≠ "1052") ∧
      (searchPollingStation asciiCase ⟨[ferenciek], healthy⟩ "1052" idleState).state.result
        = some ferenciek ∧
      (searchPollingStation asciiCase ⟨[ferenciek], healthy⟩ "1052" idleState).state.error
        = none ∧
      (searchPollingStation asciiCase ⟨[ferenciek], healthy⟩ "1052" idleState).queries
        = [Query.mk Tier.postal "1052", Query.mk Tier.settlement "%1052%",
            Query.mk Tier.address "%1052%"] := by
  decide

/-- Claim C2, as amended, at the input 1052 and a table without that postal
code: the address tier gives the result. -/
theorem empty_postal_query_falls_through_witness :
    (searchPollingStation asciiCase ⟨[ferenciek], healthy⟩ "1052" idleState).state.result
        = some ferenciek ∧
      (searchPollingStation asciiCase ⟨[ferenciek], healthy⟩ "1052" idleState).state.error
        = none ∧
      (searchPollingStation asciiCase ⟨[ferenciek], healthy⟩ "1052" idleState).queries
        = [Query.mk Tier.postal "1052", settlementQuery asciiCase "1052",
            addressQuery asciiCase "1052"] :=
  (empty_postal_query_falls_through asciiCase ⟨[ferenciek], healthy⟩ "1052" "1052" idleState
    (fun _ => rfl) (by decide) (by decide)).2.1 (by decide) ferenciek (by decide)

/-- Claim C3 at failing inputs: a query that comes back with an error object
is read as a query without rows.  With the postal-code query failing that way
the settlement and address queries are sent all the same and the call ends
with a row and no error; with all three failing the call ends with the
not-found message, not the search-error message. -/
theorem returned_error_is_read_as_no_row :
    (searchPollingStation asciiCase ⟨[varoshaz], postalErrors⟩ "1052" idleState).state.result
        = some varoshaz ∧
      (searchPollingStation asciiCase ⟨[varoshaz], postalErrors⟩ "1052" idleState).state.error
        = none ∧
      (searchPollingStation asciiCase ⟨[varoshaz], postalErrors⟩ "1052" idleState).queries
        = [Query.mk Tier.postal "1052", Query.mk Tier.settlement "%1052%",
            Query.mk Tier.address "%1052%"] ∧
      (searchPollingStation asciiCase ⟨[varoshaz], allErrors⟩ "1052" idleState).state.result
        = none ∧
      (searchPollingStation asciiCase ⟨[varoshaz], allErrors⟩ "1052" idleState).state.error
        = some notFoundMessage ∧
      (searchPollingStation asciiCase ⟨[varoshaz], allErrors⟩ "1052" idleState).queries
        = [Query.mk Tier.postal "1052", Query.mk Tier.settlement "%1052%",
            Query.mk Tier.address "%1052%"] := by
  decide

/-- The thrown path on a backend whose queries throw: the postal-code query
is the last one sent and the search-error message is set. -/
theorem thrown_query_gives_search_error_witness :
    (searchPollingStation asciiCase ⟨[varoshaz], unreachable⟩ "1052" idleState).state.error
        = some searchErrorMessage ∧
      (searchPollingStation asciiCase ⟨[varoshaz], unreachable⟩ "1052" idleState).state.error
        ≠ some notFoundMessage ∧
      (searchPollingStation asciiCase ⟨[varoshaz], unreachable⟩ "1052" idleState).state.result
        = idleState.result ∧
      (searchPollingStation asciiCase ⟨[varoshaz], unreachable⟩ "1052" idleState).queries.getLast?
        = some (Query.mk Tier.postal "1052") :=
  thrown_query_gives_search_error asciiCase ⟨[varoshaz], unreachable⟩ "1052" idleState
    (Query.mk Tier.postal "1052") (by decide) rfl

/-- Claim C5 fails as stated: the first row of postal code 6000 has no
coordinates and is stored as the result, although the next row has them. -/
theorem record_without_coordinates_returned :
    hasCoordinates tanya = false ∧ hasCoordinates kecskemet = true ∧
      (searchPollingStation asciiCase ⟨[tanya, kecskemet], healthy⟩ "6000" idleState).state.result
        = some tanya ∧
      (searchPollingStation asciiCase ⟨[tanya, kecskemet], healthy⟩ "6000" idleState).state.mapCenter
        = (none, none) := by
  decide

/-- Claim C5, as amended, at the table of the counterexample: the stored row
is the first row of postal code 6000, the one without coordinates. -/
theorem stored_result_is_first_row_witness :
    ∃ r q,
      (searchPollingStation asciiCase ⟨[tanya, kecskemet], healthy⟩ "6000" idleState).state.result
        = some r ∧
      (searchPollingStation asciiCase ⟨[tanya, kecskemet], healthy⟩ "6000" idleState).queries.getLast?
        = some q ∧
      firstRow asciiCase ⟨[tanya, kecskemet], healthy⟩ q = some r ∧ r ∈ [tanya, kecskemet] ∧
      ((∀ r' ∈ [tanya, kecskemet], hasCoordinates r' = true) → hasCoordinates r = true) :=
  stored_result_is_first_row asciiCase ⟨[tanya, kecskemet], healthy⟩ "6000" idleState (by decide)

/-- Claim C6 fails as stated: the underscore of the input stands for any
character in the `ilike` pattern, so the call returns a row whose settlement
does not contain the input, ahead of the first row that does. -/
theorem underscore_matches_any_settlement_character :
    postalMatch "Duna_" = none ∧
      (∃ r ∈ [dunaujvaros, dunapart], containsIgnoreCase asciiCase r.settlement "Duna_" = true) ∧
      [dunaujvaros, dunapart].find?
          (fun r => containsIgnoreCase asciiCase r.settlement (toLowerCase asciiCase "Duna_"))
        = some dunapart ∧
      (searchPollingStation asciiCase ⟨[dunaujvaros, dunapart], healthy⟩ "Duna_"
          idleState).state.result = some dunaujvaros ∧
      dunaujvaros ≠ dunapart := by
  decide

/-- Claim C6, as amended, at an upper-case input without metacharacters. -/
theorem settlement_match_found_witness :
    ∃ r, [petofi, kecskemet].find?
          (fun r => containsIgnoreCase asciiCase r.settlement (toLowerCase asciiCase "KECSKE"))
          = some r ∧
      (searchPollingStation asciiCase ⟨[petofi, kecskemet], healthy⟩ "KECSKE"
          idleState).state.result = some r ∧
      (searchPollingStation asciiCase ⟨[petofi, kecskemet], healthy⟩ "KECSKE"
          idleState).state.error = none ∧
      (searchPollingStation asciiCase ⟨[petofi, kecskemet], healthy⟩ "KECSKE"
          idleState).queries = [settlementQuery asciiCase "KECSKE"] :=
  settlement_match_found asciiCase ⟨[petofi, kecskemet], healthy⟩ "KECSKE" idleState rfl
    (by decide) (by decide) ⟨kecskemet, by decide, by decide⟩

/-- Claim C7 fails as stated: no settlement matches, some address contains the
input, yet the result is not the first row whose address contains the
lower-cased input, because the underscore matches the blank of an earlier
row. -/
theorem underscore_matches_any_address_character :
    postalMatch "Fő_utca" = none ∧
      (∀ r ∈ [vac, god], containsIgnoreCase asciiCase r.settlement "Fő_utca" = false) ∧
      (∀ r ∈ [vac, god], ilike asciiCase (containsPattern (toLowerCase asciiCase "Fő_utca"))
          r.settlement = false) ∧
      [vac, god].find?
          (fun r => containsIgnoreCase asciiCase r.address (toLowerCase asciiCase "Fő_utca"))
        = some god ∧
      (searchPollingStation asciiCase ⟨[vac, god], healthy⟩ "Fő_utca" idleState).state.result
        = some vac ∧
      vac ≠ god := by
  decide

/-- Claim C7, as amended, at an input that only an address contains. -/
theorem address_tier_after_settlement_witness :
    ∃ r, [petofi, kecskemet].find?
          (fun r => containsIgnoreCase asciiCase r.address (toLowerCase asciiCase "Kossuth tér"))
          = some r ∧
      (searchPollingStation asciiCase ⟨[petofi, kecskemet], healthy⟩ "Kossuth tér"
          idleState).state.result = some r ∧
      (searchPollingStation asciiCase ⟨[petofi, kecskemet], healthy⟩ "Kossuth tér"
          idleState).state.error = none ∧
      (searchPollingStation asciiCase ⟨[petofi, kecskemet], healthy⟩ "Kossuth tér"
          idleState).queries.getLast? = some (addressQuery asciiCase "Kossuth tér") :=
  (address_tier_after_settlement asciiCase ⟨[petofi, kecskemet], healthy⟩ "Kossuth tér" idleState
    (fun _ => rfl) (by decide) (by decide)).1 (by decide) ⟨kecskemet, by decide, by decide⟩

/-- Claim C8 fails as stated: every query is answered and no settlement or
address contains the input, yet the call ends with a row and no error. -/
theorem underscore_finds_a_row_no_text_contains :
    postalMatch "Fő_utca" = none ∧
      (∀ r ∈ [vac], containsIgnoreCase asciiCase r.settlement "Fő_utca" = false) ∧
      (∀ r ∈ [vac], containsIgnoreCase asciiCase r.address "Fő_utca" = false) ∧
      (searchPollingStation asciiCase ⟨[vac], healthy⟩ "Fő_utca" idleState).state.result
        = some vac ∧
      (searchPollingStation asciiCase ⟨[vac], healthy⟩ "Fő_utca" idleState).state.error
        = none := by
  decide

/-- Claim C8, as amended, at an input that nothing contains. -/
theorem no_match_not_found_witness :
    (searchPollingStation asciiCase ⟨[petofi, kecskemet], healthy⟩ "xyzzy" idleState).state.result
        = none ∧
      (searchPollingStation asciiCase ⟨[petofi, kecskemet], healthy⟩ "xyzzy" idleState).state.error
        = some notFoundMessage :=
  no_match_not_found asciiCase ⟨[petofi, kecskemet], healthy⟩ "xyzzy" idleState
    (fun _ => rfl) (by decide) (by decide) (by decide) (by decide)

/-- Claim C9 at a failing input: on a backend whose query throws, two calls
with the same input end with different `result` values, each keeping the value
its component state held before the call. -/
theorem thrown_query_keeps_earlier_result :
    (searchPollingStation asciiCase ⟨[petofi], unreachable⟩ "6000" idleState).state.result
        = none ∧
      (searchPollingStation asciiCase ⟨[petofi], unreachable⟩ "6000" shownState).state.result
        = some petofi := by
  decide

/-- Claim C10 at a failing input: started from a state that shows a record, a
call whose query throws ends with both `result` and `error` set. -/
theorem thrown_query_shows_record_with_error :
    (searchPollingStation asciiCase ⟨[petofi], unreachable⟩ "Kecskemét" shownState).state.result
        = some petofi ∧
      (searchPollingStation asciiCase ⟨[petofi], unreachable⟩ "Kecskemét" shownState).state.error
        = some searchErrorMessage ∧
      (searchPollingStation asciiCase ⟨[petofi], unreachable⟩ "Kecskemét" shownState).state.loading
        = false := by
  decide

end PollingFinder
